import Mathlib

/-!
Verification of the Crypto-Dashboard data pipeline.

This file gives a shallow embedding, in Lean 4, of the pipeline logic of the
dashboard: the chart-data utilities (`src/utils/chartUtils.ts`), the CoinGecko
API service with its error classification and retry loop
(`services/coingeckoApi.ts`), the security helpers (`utils/security.ts`), the
project constants (`utils/constants.ts`) and the two-stage filter resolver
(`src/hooks/useCryptoFiltering.ts`).  JavaScript numbers are modelled by `JsNum`
(NaN, the two infinities, or a finite value represented as a rational);
machine floating point rounding is not modelled, which is irrelevant for the
structural properties proved here.  Asynchronous operations are modelled as
functions from the attempt index to an `Except` outcome; backoff delays do not
affect any returned value and are left out of the model.
-/

namespace CryptoDash

/-- Model of a JavaScript `number`: NaN, an infinity, or a finite value. -/
inductive JsNum where
  | nan
  | inf
  | ninf
  | num (q : ℚ)
deriving DecidableEq, Repr

namespace JsNum

/-- IEEE addition restricted to the modelled values (`+` on JS numbers). -/
def add : JsNum → JsNum → JsNum
  | .nan, _ => .nan
  | _, .nan => .nan
  | .inf, .ninf => .nan
  | .inf, _ => .inf
  | .ninf, .inf => .nan
  | .ninf, _ => .ninf
  | .num _, .inf => .inf
  | .num _, .ninf => .ninf
  | .num a, .num b => .num (a + b)

/-- IEEE negation. -/
def neg : JsNum → JsNum
  | .nan => .nan
  | .inf => .ninf
  | .ninf => .inf
  | .num a => .num (-a)

/-- IEEE subtraction (`a - b = a + (-b)`). -/
def sub (a b : JsNum) : JsNum := a.add b.neg

/-- IEEE division by a non-negative integer denominator (the only division the
downsampler performs: `sum / (end - start)`). -/
def divNat : JsNum → Nat → JsNum
  | .nan, _ => .nan
  | .inf, _ => .inf
  | .ninf, _ => .ninf
  | .num a, 0 => if a = 0 then .nan else if 0 < a then .inf else .ninf
  | .num a, (n + 1) => .num (a / (n + 1))

/-- `Math.abs`. -/
def abs : JsNum → JsNum
  | .nan => .nan
  | .inf => .inf
  | .ninf => .inf
  | .num a => .num |a|

/-- IEEE strict `>` (false whenever NaN is involved). -/
def gt : JsNum → JsNum → Bool
  | .nan, _ => false
  | _, .nan => false
  | .inf, .inf => false
  | .inf, _ => true
  | .ninf, _ => false
  | .num _, .inf => false
  | .num _, .ninf => true
  | .num a, .num b => decide (b < a)

/-- IEEE `<=` (false whenever NaN is involved). -/
def le : JsNum → JsNum → Bool
  | .nan, _ => false
  | _, .nan => false
  | .ninf, _ => true
  | _, .inf => true
  | .inf, _ => false
  | .num _, .ninf => false
  | .num a, .num b => decide (a ≤ b)

/-- `isNaN`. -/
def isNaNB : JsNum → Bool
  | .nan => true
  | _ => false

/-- `isFinite`. -/
def isFiniteB : JsNum → Bool
  | .num _ => true
  | _ => false

end JsNum

/-- `ChartDataPoint` (types.ts): a chart point with a timestamp and a price. -/
structure ChartDataPoint where
  timestamp : JsNum
  price : JsNum
deriving DecidableEq, Repr

instance : Inhabited ChartDataPoint := ⟨⟨.num 0, .num 0⟩⟩

/-- Timestamp order between two chart points (`a.timestamp <= b.timestamp`). -/
def tsLe (a b : ChartDataPoint) : Prop := a.timestamp.le b.timestamp = true

/-! ### Downsampling engine (`src/utils/chartUtils.ts`, `downsampleData`) -/

/-- The indices visited by a bucket loop `for (j = start; j < stop && j < len; j++)`. -/
def bucketIdxs (len start stop : Nat) : List Nat :=
  List.range' start (min stop len - start)

/-- The bucket-average accumulation `sum += data[j].price` over the given indices. -/
def bucketSum (data : List ChartDataPoint) (idxs : List Nat) : JsNum :=
  idxs.foldl (fun s j => s.add (data.getD j default).price) (.num 0)

/-- The selection loop of `downsampleData` (lines 52–58): keep the point with the
largest deviation `|price - avg|` seen so far; `maxDiff` starts at `-Infinity`. -/
def bestGo (data : List ChartDataPoint) (avg : JsNum) :
    List Nat → JsNum → ChartDataPoint → ChartDataPoint
  | [], _, best => best
  | j :: rest, maxDiff, best =>
    if (((data.getD j default).price.sub avg).abs).gt maxDiff then
      bestGo data avg rest (((data.getD j default).price.sub avg).abs) (data.getD j default)
    else bestGo data avg rest maxDiff best

/-- One interior bucket of `downsampleData` (lines 36–60): average the bucket
`[start, stop)` (clipped to the data length) and pick its most deviant point;
the candidate is initialised to `data[start]` and `maxDiff` to `-Infinity`. -/
def bestOfBucket (data : List ChartDataPoint) (start stop : Nat) : ChartDataPoint :=
  bestGo data
    ((bucketSum data (bucketIdxs data.length start stop)).divNat (stop - start))
    (bucketIdxs data.length start stop) .ninf (data.getD start default)

/-- `downsampleData(data, maxPoints)` (chartUtils.ts lines 20–67): identity when
`data.length <= maxPoints`; otherwise keep the first point, one representative
per interior bucket (`i = 1 .. maxPoints-2`, bucket `[i*bucketSize, (i+1)*bucketSize)`),
and the last point. -/
def downsampleData (data : List ChartDataPoint) (maxPoints : Nat) : List ChartDataPoint :=
  if data.length ≤ maxPoints then data
  else
    let bucketSize := data.length / maxPoints
    let interior := (List.range' 1 (maxPoints - 2)).map fun i =>
      bestOfBucket data (i * bucketSize) (i * bucketSize + bucketSize)
    data.getD 0 default :: (interior ++ [data.getD (data.length - 1) default])

/-- The per-point validity test of `validateChartData` (lines 97–103):
`point.timestamp > 0 && typeof point.price === 'number' && !isNaN(point.price)
&& isFinite(point.price)`; in this typed model every `JsNum` has JS type
`'number'`, so the `typeof` conjunct is identically true. -/
def validPoint (p : ChartDataPoint) : Bool :=
  p.timestamp.gt (.num 0) && !p.price.isNaNB && p.price.isFiniteB

/-- `validateChartData(data)` (chartUtils.ts lines 92–106).  The typed model only
receives arrays, so the `Array.isArray` guard cannot fire here. -/
def validateChartData (data : List ChartDataPoint) : Bool :=
  if data.length = 0 then false
  else decide (0 < (data.filter validPoint).length)

/-! ### String helpers and error formatting -/

/-- `String.prototype.includes` on character lists. -/
def containsSubAux : List Char → List Char → Bool
  | [], sub => sub.isEmpty
  | l@(_ :: t), sub => sub.isPrefixOf l || containsSubAux t sub

/-- `s.includes(sub)`. -/
def strIncludes (s sub : String) : Bool := containsSubAux s.toList sub.toList

/-- A value reaching a `catch` handler: a JS `Error` object (with its `message`)
or any other thrown value. -/
inductive JsThrown where
  | errObj (message : String)
  | nonError
deriving DecidableEq, Repr

/-- `formatChartError` (chartUtils.ts lines 131–145). -/
def formatChartError : JsThrown → String
  | .errObj msg =>
    if strIncludes msg "429" || strIncludes msg "rate limit" then
      "Límite de solicitudes excedido. Espera un momento e intenta de nuevo."
    else if strIncludes msg "network" || strIncludes msg "fetch" then
      "Error de conexión. Verifica tu conexión a internet."
    else "Error al cargar datos: " ++ msg
  | .nonError => "Error desconocido al cargar el gráfico."

/-- `getSafeErrorMessage` (utils/security.ts lines 27–37). -/
def getSafeErrorMessage : JsThrown → String
  | .errObj msg =>
    if strIncludes msg "429" then "Rate limit reached. Please wait a moment."
    else if strIncludes msg "Network" then "Network error. Please check your connection."
    else "An unexpected error occurred. Please try again."
  | .nonError => "An unexpected error occurred. Please try again."

/-! ### Constants (`src/utils/constants.ts`) -/

namespace ERROR_MESSAGES

def RATE_LIMIT : String := "Demasiadas solicitudes. Esperando para reintentar..."

def NETWORK_ERROR : String := "Error de conexión. Verifica tu conexión a internet."

def GENERIC : String := "Ocurrió un error inesperado. Por favor, intenta nuevamente."

end ERROR_MESSAGES

namespace RETRY_CONFIG

def MAX_RETRIES : Nat := 3

def INITIAL_DELAY : Nat := 1000

def MAX_DELAY : Nat := 10000

def BACKOFF_MULTIPLIER : Nat := 2

end RETRY_CONFIG

namespace FILTER_CONFIG

def MIN_RESULTS_THRESHOLD : Nat := 5

def CACHE_TIME : Nat := 2 * 60 * 1000

def DYNAMIC_THRESHOLD_PERCENTAGE : ℚ := mkRat 1 10

end FILTER_CONFIG

/-- One entry of the `TIMEFRAMES` table. -/
structure TimeFrameInfo where
  label : String
  days : ℚ
deriving DecidableEq, Repr

/-- The `TIMEFRAMES` record (constants.ts): a lookup from the timeframe tag to
its configuration (`'1h'` uses `days: 0.04`). -/
def TIMEFRAMES (tf : String) : Option TimeFrameInfo :=
  if tf = "1h" then some ⟨"1H", mkRat 1 25⟩
  else if tf = "24h" then some ⟨"24H", 1⟩
  else if tf = "7d" then some ⟨"7D", 7⟩
  else if tf = "30d" then some ⟨"30D", 30⟩
  else if tf = "1y" then some ⟨"1Y", 365⟩
  else none

/-! ### API error classification and retry loop (`services/coingeckoApi.ts`) -/

/-- `ApiError` (types.ts): the classified error shape `{ status, message }`. -/
structure ApiError where
  status : Nat
  message : String
deriving DecidableEq, Repr

/-- The response attached to an Axios error: its HTTP status and the optional
`error` field of the response body (`response.data.error`). -/
structure AxiosResponse where
  status : Nat
  errorData : Option String
deriving DecidableEq, Repr

/-- A value thrown by an operation, as seen by `handleApiError`: an Axios error
(whose `response` is absent exactly when no response was received), or any other
thrown value (e.g. a plain `Error`). -/
inductive RawError where
  | axios (response : Option AxiosResponse)
  | other
deriving DecidableEq, Repr

/-- `handleApiError` (coingeckoApi.ts lines 36–71): classify a thrown value into
an `ApiError`.  `status` is `response?.status || 0`; 429 maps to the rate-limit
message, a missing response to the network message, any other response to its
body's `error` field (`responseData?.error || GENERIC`, so an empty string also
falls back), and a non-Axios value to a generic 500. -/
def handleApiError : RawError → ApiError
  | .axios response =>
    let status := (response.map (·.status)).getD 0
    if status = 429 then ⟨429, ERROR_MESSAGES.RATE_LIMIT⟩
    else
      match response with
      | none => ⟨0, ERROR_MESSAGES.NETWORK_ERROR⟩
      | some r =>
        ⟨status,
          match r.errorData with
          | some s => if s = "" then ERROR_MESSAGES.GENERIC else s
          | none => ERROR_MESSAGES.GENERIC⟩
  | .other => ⟨500, ERROR_MESSAGES.GENERIC⟩

/-- The loop of `withRetry` (coingeckoApi.ts lines 192–212):
`for (attempt = 0; attempt <= maxRetries; attempt++)`.  `op attempt` is the
outcome of the attempt with that index, `fuel` the number of loop iterations
still permitted (initially `maxRetries + 1`), and the second component of the
result counts the invocations of the operation.  A classified 4xx status other
than 429 is thrown without retrying; on the last allowed attempt the error is
thrown; otherwise the loop continues after a backoff delay (which does not
affect the returned value and is not modelled).  The fuel-exhausted branch
mirrors the trailing `throw lastError || new Error(GENERIC)`. -/
def withRetryGo (op : Nat → Except RawError α) (maxRetries : Nat) :
    Nat → Nat → Option ApiError → Except ApiError α × Nat
  | 0, attempt, lastError =>
    (Except.error (lastError.getD ⟨500, ERROR_MESSAGES.GENERIC⟩), attempt)
  | fuel + 1, attempt, _ =>
    match op attempt with
    | .ok v => (.ok v, attempt + 1)
    | .error e =>
      let lastError := handleApiError e
      if 400 ≤ lastError.status ∧ lastError.status < 500 ∧ lastError.status ≠ 429 then
        (.error lastError, attempt + 1)
      else if attempt = maxRetries then (.error lastError, attempt + 1)
      else withRetryGo op maxRetries fuel (attempt + 1) (some lastError)

/-- `withRetry(operation, maxRetries)` (coingeckoApi.ts lines 186–215), --
returning the final outcome together with the number of times the operation was
invoked. -/
def withRetry (op : Nat → Except RawError α)
    (maxRetries : Nat := RETRY_CONFIG.MAX_RETRIES) : Except ApiError α × Nat :=
  withRetryGo op maxRetries (maxRetries + 1) 0 none

/-- The timeframe guard of `fetchChartData` (coingeckoApi.ts lines 120–124), as a
retryable operation: an unknown timeframe tag throws a plain `Error` before any
HTTP request is made; a known tag proceeds with the request, whose outcome per
attempt is the parameter `request`. -/
def fetchChartDataOp (timeframe : String) (request : Nat → Except RawError α) :
    Nat → Except RawError α :=
  fun attempt =>
    if (TIMEFRAMES timeframe).isSome then request attempt
    else Except.error RawError.other

/-! ### Two-stage filter resolver (`src/hooks/useCryptoFiltering.ts`) -/

/-- `Cryptocurrency` (types.ts), restricted to the fields the filter resolver
reads.  `price_change_percentage_24h` is `none` when the API omitted the field
(the hook guards every read with `?? 0`). -/
structure Cryptocurrency where
  id : String
  price_change_percentage_24h : Option ℚ
  total_volume : ℚ
deriving DecidableEq, Repr

/-- `FilterType` (types.ts): `'winners' | 'losers' | 'volume' | 'all'`. -/
inductive FilterType where
  | all
  | winners
  | losers
  | volume
deriving DecidableEq, Repr

/-- The guarded read `(c.price_change_percentage_24h ?? 0)`. -/
def changeOf (c : Cryptocurrency) : ℚ := c.price_change_percentage_24h.getD 0

/-- Insert into a list sorted by the boolean comparison `le`. -/
def insertBy (le : α → α → Bool) (x : α) : List α → List α
  | [] => [x]
  | y :: ys => if le x y then x :: y :: ys else y :: insertBy le x ys

/-- Insertion sort by the boolean comparison `le`; models
`[...array].sort(comparator)` where `le a b` means the comparator does not
order `b` strictly before `a`. -/
def sortBy (le : α → α → Bool) : List α → List α
  | [] => []
  | x :: xs => insertBy le x (sortBy le xs)

/-- JS array indexing `l[i]` with a possibly signed index: `undefined` (`none`)
when out of range, including any negative index. -/
def listAt? (l : List α) (i : ℤ) : Option α :=
  if i < 0 then none else l.get? i.toNat

/-- `Math.ceil(allCryptos.length * dynamicThresholdPercentage)`
(useCryptoFiltering.ts line 81). -/
def thresholdIndex (len : Nat) (pct : ℚ) : ℤ := Int.ceil ((len : ℚ) * pct)

/-- The value returned by the Stage-1 memo:
`{ clientFiltered, threshold }`. -/
structure Stage1Result where
  clientFiltered : List Cryptocurrency
  threshold : ℚ
deriving Repr

/-- Stage 1 of `useCryptoFiltering` (lines 71–137): on an empty snapshot or the
`all` filter return early; otherwise sort the snapshot on the relevant field
(descending for winners/volume, ascending for losers), read the dynamic
threshold at `sorted[thresholdIndex]` (with `?? 0` fallback), and filter the
original snapshot against it (winners additionally need change `> 0`, losers
change `< 0`).  The unreachable `default` branch of the source `switch` is the
final `all` arm. -/
def stage1 (allCryptos : List Cryptocurrency) (filterType : FilterType)
    (pct : ℚ) : Stage1Result :=
  if allCryptos.length = 0 then ⟨[], 0⟩
  else if filterType = .all then ⟨allCryptos, 0⟩
  else
    let idx := thresholdIndex allCryptos.length pct
    match filterType with
    | .winners =>
      let sorted := sortBy (fun a b => changeOf b ≤ changeOf a) allCryptos
      let t := ((listAt? sorted idx).bind (·.price_change_percentage_24h)).getD 0
      ⟨allCryptos.filter fun c => decide (t ≤ changeOf c ∧ 0 < changeOf c), t⟩
    | .losers =>
      let sorted := sortBy (fun a b => changeOf a ≤ changeOf b) allCryptos
      let t := ((listAt? sorted idx).bind (·.price_change_percentage_24h)).getD 0
      ⟨allCryptos.filter fun c => decide (changeOf c ≤ t ∧ changeOf c < 0), t⟩
    | .volume =>
      let sorted := sortBy (fun a b => b.total_volume ≤ a.total_volume) allCryptos
      let t := ((listAt? sorted idx).map (·.total_volume)).getD 0
      ⟨allCryptos.filter fun c => decide (t ≤ c.total_volume), t⟩
    | .all => ⟨allCryptos, 0⟩

/-- The escalation decision `needsApiCall` (useCryptoFiltering.ts lines
143–146): never for `all`, otherwise exactly when the Stage-1 result count is
below `minResultsThreshold`. -/
def needsApiCall (allCryptos : List Cryptocurrency) (filterType : FilterType)
    (pct : ℚ) (minResultsThreshold : Nat) : Bool :=
  if filterType = .all then false
  else decide ((stage1 allCryptos filterType pct).clientFiltered.length < minResultsThreshold)

/-- The Stage-2 (remote) filter applied to the expanded page
(useCryptoFiltering.ts lines 166–188): winners keep strictly positive change
then sort descending, losers keep strictly negative change then sort ascending,
volume sorts by volume descending without filtering, and the `default` branch
returns the page unchanged. -/
def stage2Filter (expandedData : List Cryptocurrency) (filterType : FilterType) :
    List Cryptocurrency :=
  match filterType with
  | .winners =>
    sortBy (fun a b => changeOf b ≤ changeOf a)
      (expandedData.filter fun c => decide (0 < changeOf c))
  | .losers =>
    sortBy (fun a b => changeOf a ≤ changeOf b)
      (expandedData.filter fun c => decide (changeOf c < 0))
  | .volume => sortBy (fun a b => b.total_volume ≤ a.total_volume) expandedData
  | .all => expandedData

/-! ### Helper lemmas -/

/-- Membership through `insertBy`. -/
theorem mem_insertBy (le : α → α → Bool) (x y : α) (l : List α) :
    y ∈ insertBy le x l ↔ y = x ∨ y ∈ l := by
  induction l with
  | nil => simp [insertBy]
  | cons z zs ih =>
    by_cases h : le x z
    · simp [insertBy, h, ih]
    · simp [insertBy, h, ih]
      tauto

/-- `sortBy` permutes membership. -/
theorem mem_sortBy (le : α → α → Bool) (y : α) (l : List α) :
    y ∈ sortBy le l ↔ y ∈ l := by
  induction l with
  | nil => simp [sortBy]
  | cons z zs ih => simp [sortBy, mem_insertBy, ih]

/-- The dynamic threshold of the Stage-1 winners branch. -/
def winnersThreshold (allCryptos : List Cryptocurrency) (pct : ℚ) : ℚ :=
  ((listAt? (sortBy (fun a b => changeOf b ≤ changeOf a) allCryptos)
      (thresholdIndex allCryptos.length pct)).bind
        (·.price_change_percentage_24h)).getD 0

/-- The dynamic threshold of the Stage-1 losers branch. -/
def losersThreshold (allCryptos : List Cryptocurrency) (pct : ℚ) : ℚ :=
  ((listAt? (sortBy (fun a b => changeOf a ≤ changeOf b) allCryptos)
      (thresholdIndex allCryptos.length pct)).bind
        (·.price_change_percentage_24h)).getD 0

/-- Unfolding of the Stage-1 winners branch on a non-empty snapshot. -/
theorem stage1_winners_eq (allCryptos : List Cryptocurrency) (pct : ℚ)
    (h : allCryptos.length ≠ 0) :
    stage1 allCryptos .winners pct =
      ⟨allCryptos.filter fun c =>
          decide (winnersThreshold allCryptos pct ≤ changeOf c ∧ 0 < changeOf c),
        winnersThreshold allCryptos pct⟩ := by
  unfold stage1 winnersThreshold
  rw [if_neg h, if_neg (by decide)]

/-- Unfolding of the Stage-1 losers branch on a non-empty snapshot. -/
theorem stage1_losers_eq (allCryptos : List Cryptocurrency) (pct : ℚ)
    (h : allCryptos.length ≠ 0) :
    stage1 allCryptos .losers pct =
      ⟨allCryptos.filter fun c =>
          decide (changeOf c ≤ losersThreshold allCryptos pct ∧ changeOf c < 0),
        losersThreshold allCryptos pct⟩ := by
  unfold stage1 losersThreshold
  rw [if_neg h, if_neg (by decide)]

/-! ### Claim C5 -/

/-- C5: for every series and maxPoints with `series.length ≤ maxPoints`,
`downsampleData` returns the series unchanged, and hence re-downsampling such a
result with the same maxPoints also returns it unchanged (idempotence). -/
theorem C5_downsample_identity (data : List ChartDataPoint) (maxPoints : Nat)
    (h : data.length ≤ maxPoints) :
    downsampleData data maxPoints = data ∧
      downsampleData (downsampleData data maxPoints) maxPoints =
        downsampleData data maxPoints := by
  have h1 : downsampleData data maxPoints = data := by
    unfold downsampleData
    rw [if_pos h]
  refine ⟨h1, ?_⟩
  rw [h1]
  exact h1

/-- Witness for C5 at a concrete two-point series and `maxPoints = 5`. -/
theorem C5_downsample_identity_witness :
    downsampleData [⟨JsNum.num 1, JsNum.num 10⟩, ⟨JsNum.num 2, JsNum.num 20⟩] 5 =
      [⟨JsNum.num 1, JsNum.num 10⟩, ⟨JsNum.num 2, JsNum.num 20⟩] :=
  (C5_downsample_identity
    [⟨JsNum.num 1, JsNum.num 10⟩, ⟨JsNum.num 2, JsNum.num 20⟩] 5 (by decide)).1

/-! ### Claim C3 -/

/-- C3: the resolver escalates to a remote fetch (`needsApiCall = true`) iff the
filter is not `all` and the Stage-1 result count is strictly below
`minResultsThreshold`; for `all` it never escalates; the configured default
threshold is 5. -/
theorem C3_needs_api_call_iff (allCryptos : List Cryptocurrency)
    (filterType : FilterType) (pct : ℚ) (minResultsThreshold : Nat) :
    (needsApiCall allCryptos filterType pct minResultsThreshold = true ↔
      filterType ≠ .all ∧
        (stage1 allCryptos filterType pct).clientFiltered.length < minResultsThreshold) ∧
    needsApiCall allCryptos .all pct minResultsThreshold = false ∧
    FILTER_CONFIG.MIN_RESULTS_THRESHOLD = 5 := by
  refine ⟨?_, by simp [needsApiCall], rfl⟩
  unfold needsApiCall
  by_cases hft : filterType = .all <;> simp [hft]

/-! ### Claim C7 -/

/-- C7: `validateChartData` returns `false` exactly when the (typed) input list
is empty or contains no fully valid point (finite, non-NaN price and strictly
positive timestamp); a NaN price among otherwise valid points is accepted as
long as one point is fully valid, and an all-NaN series is rejected. -/
theorem C7_validate_series_iff :
    (∀ data : List ChartDataPoint,
      validateChartData data = false ↔
        data = [] ∨ ∀ p ∈ data, validPoint p = false) ∧
    validateChartData
      [⟨JsNum.num 1, JsNum.num 5⟩, ⟨JsNum.num 2, JsNum.nan⟩] = true ∧
    validateChartData [⟨JsNum.num 1, JsNum.nan⟩, ⟨JsNum.num 2, JsNum.nan⟩] = false := by
  refine ⟨?_, by decide, by decide⟩
  intro data
  unfold validateChartData
  by_cases h : data.length = 0
  · simp [h, List.length_eq_zero.mp h]
  · have hne : data ≠ [] := fun h' => h (by simp [h'])
    simp [h, hne, List.length_eq_zero, List.filter_eq_nil_iff]

/-! ### Claim C10 -/

/-- C10: a record whose 24h-change field is absent is read as exactly 0
(`?? 0`), and consequently is never included in a WINNERS result (which needs
change > 0) nor in a LOSERS result (which needs change < 0), neither by the
Stage-1 local filter nor by the Stage-2 remote filter, for any snapshot and any
threshold configuration. -/
theorem C10_null_change_never_winner_or_loser :
    (∀ c : Cryptocurrency, c.price_change_percentage_24h = none → changeOf c = 0) ∧
    (∀ (allCryptos : List Cryptocurrency) (pct : ℚ),
      ((stage1 allCryptos .winners pct).clientFiltered.all
        fun c => c.price_change_percentage_24h.isSome) = true ∧
      ((stage1 allCryptos .losers pct).clientFiltered.all
        fun c => c.price_change_percentage_24h.isSome) = true) ∧
    (∀ expanded : List Cryptocurrency,
      ((stage2Filter expanded .winners).all
        fun c => c.price_change_percentage_24h.isSome) = true ∧
      ((stage2Filter expanded .losers).all
        fun c => c.price_change_percentage_24h.isSome) = true) := by
  have hkey : ∀ c : Cryptocurrency, ¬c.price_change_percentage_24h.isSome = true →
      changeOf c = 0 := by
    intro c hc
    unfold changeOf
    cases hop : c.price_change_percentage_24h with
    | none => rfl
    | some q => exact absurd (by simp [hop]) hc
  refine ⟨fun c hc => by simp [changeOf, hc], ?_, ?_⟩
  · intro allCryptos pct
    by_cases hlen : allCryptos.length = 0
    · have hnil : allCryptos = [] := List.length_eq_zero.mp hlen
      subst hnil
      constructor <;> rfl
    constructor <;>
    · rw [List.all_eq_true]
      intro c hc
      by_contra hnone
      have h0 : changeOf c = 0 := hkey c hnone
      first
      | rw [stage1_winners_eq allCryptos pct hlen] at hc
      | rw [stage1_losers_eq allCryptos pct hlen] at hc
      simp only [List.mem_filter, decide_eq_true_eq] at hc
      rw [h0] at hc
      simp at hc
  · intro expanded
    constructor <;>
    · rw [List.all_eq_true]
      intro c hc
      by_contra hnone
      have h0 : changeOf c = 0 := hkey c hnone
      unfold stage2Filter at hc
      rw [mem_sortBy] at hc
      simp only [List.mem_filter, decide_eq_true_eq] at hc
      rw [h0] at hc
      simp at hc

/-- Witness for C10: a concrete record with an absent change field reads as 0. -/
theorem C10_null_change_witness :
    changeOf ⟨"btc", none, 0⟩ = 0 :=
  C10_null_change_never_winner_or_loser.1 ⟨"btc", none, 0⟩ rfl

/-! ### Retry-loop lemmas -/

/-- The classified-error test of `withRetry` line 199: a 4xx other than 429. -/
def isClientError (e : ApiError) : Prop :=
  400 ≤ e.status ∧ e.status < 500 ∧ e.status ≠ 429

instance (e : ApiError) : Decidable (isClientError e) := by
  unfold isClientError
  infer_instance

/-- Unfolding of the retry loop on a successful attempt. -/
theorem withRetryGo_succ_ok (op : Nat → Except RawError α) (maxRetries : Nat)
    (fuel attempt : Nat) (lastError : Option ApiError) (v : α)
    (hop : op attempt = .ok v) :
    withRetryGo op maxRetries (fuel + 1) attempt lastError = (.ok v, attempt + 1) := by
  unfold withRetryGo
  rw [hop]

/-- Unfolding of the retry loop on a failed attempt. -/
theorem withRetryGo_succ_error (op : Nat → Except RawError α) (maxRetries : Nat)
    (fuel attempt : Nat) (lastError : Option ApiError) (e : RawError)
    (hop : op attempt = .error e) :
    withRetryGo op maxRetries (fuel + 1) attempt lastError =
      (if isClientError (handleApiError e) then (.error (handleApiError e), attempt + 1)
       else if attempt = maxRetries then (.error (handleApiError e), attempt + 1)
       else withRetryGo op maxRetries fuel (attempt + 1) (some (handleApiError e))) := by
  conv_lhs => rw [withRetryGo]
  rw [hop]
  rfl

/-- The retry loop performs at most `attempt + fuel` invocations in total. -/
theorem withRetryGo_count_le (op : Nat → Except RawError α) (maxRetries : Nat) :
    ∀ (fuel attempt : Nat) (lastError : Option ApiError),
      (withRetryGo op maxRetries fuel attempt lastError).2 ≤ attempt + fuel := by
  intro fuel
  induction fuel with
  | zero => intro attempt lastError; simp [withRetryGo]
  | succ fuel ih =>
    intro attempt lastError
    cases hop : op attempt with
    | ok v => rw [withRetryGo_succ_ok op maxRetries fuel attempt lastError v hop]; omega
    | error e =>
      rw [withRetryGo_succ_error op maxRetries fuel attempt lastError e hop]
      by_cases hce : isClientError (handleApiError e)
      · rw [if_pos hce]; omega
      · rw [if_neg hce]
        by_cases hat : attempt = maxRetries
        · rw [if_pos hat]; omega
        · rw [if_neg hat]
          have := ih (attempt + 1) (some (handleApiError e))
          omega

/-- If the retry loop returns a success, it is the value of the last performed
attempt. -/
theorem withRetryGo_ok (op : Nat → Except RawError α) (maxRetries : Nat) :
    ∀ (fuel attempt : Nat) (lastError : Option ApiError) (v : α),
      (withRetryGo op maxRetries fuel attempt lastError).1 = .ok v →
      op ((withRetryGo op maxRetries fuel attempt lastError).2 - 1) = .ok v := by
  intro fuel
  induction fuel with
  | zero => intro attempt lastError v h; simp [withRetryGo] at h
  | succ fuel ih =>
    intro attempt lastError v h
    cases hop : op attempt with
    | ok w =>
      rw [withRetryGo_succ_ok op maxRetries fuel attempt lastError w hop] at h ⊢
      simp at h ⊢
      rw [← h]
      exact hop
    | error e =>
      rw [withRetryGo_succ_error op maxRetries fuel attempt lastError e hop] at h ⊢
      by_cases hce : isClientError (handleApiError e)
      · rw [if_pos hce] at h; simp at h
      · rw [if_neg hce] at h ⊢
        by_cases hat : attempt = maxRetries
        · rw [if_pos hat] at h; simp at h
        · rw [if_neg hat] at h ⊢
          exact ih (attempt + 1) (some (handleApiError e)) v h

/-- If the retry loop (entered with consistent fuel) returns an error, it is the
classification of the raw error of the last performed attempt. -/
theorem withRetryGo_error (op : Nat → Except RawError α) (maxRetries : Nat) :
    ∀ (fuel attempt : Nat) (lastError : Option ApiError) (e : ApiError),
      attempt ≤ maxRetries →
      attempt + fuel = maxRetries + 1 →
      (withRetryGo op maxRetries fuel attempt lastError).1 = .error e →
      ∃ raw, op ((withRetryGo op maxRetries fuel attempt lastError).2 - 1) = .error raw ∧
        e = handleApiError raw := by
  intro fuel
  induction fuel with
  | zero => intro attempt lastError e hle hinv h; omega
  | succ fuel ih =>
    intro attempt lastError e hle hinv h
    cases hop : op attempt with
    | ok w =>
      rw [withRetryGo_succ_ok op maxRetries fuel attempt lastError w hop] at h
      simp at h
    | error raw =>
      rw [withRetryGo_succ_error op maxRetries fuel attempt lastError raw hop] at h ⊢
      by_cases hce : isClientError (handleApiError raw)
      · rw [if_pos hce] at h ⊢
        simp at h ⊢
        exact ⟨raw, hop, h.symm⟩
      · rw [if_neg hce] at h ⊢
        by_cases hat : attempt = maxRetries
        · rw [if_pos hat] at h ⊢
          simp at h ⊢
          exact ⟨raw, hop, h.symm⟩
        · rw [if_neg hat] at h ⊢
          exact ih (attempt + 1) (some (handleApiError raw)) e (by omega) (by omega) h

/-- A wrapped operation whose every outcome classifies as retryable (not a 4xx
other than 429) is invoked exactly `maxRetries + 1` times, and the final
classified error is raised. -/
theorem withRetryGo_const_retryable (op : Nat → Except RawError α)
    (maxRetries : Nat) (raw : RawError)
    (hop : ∀ n, op n = .error raw) (hce : ¬isClientError (handleApiError raw)) :
    ∀ (fuel attempt : Nat) (lastError : Option ApiError),
      attempt ≤ maxRetries →
      attempt + fuel = maxRetries + 1 →
      withRetryGo op maxRetries fuel attempt lastError =
        (.error (handleApiError raw), maxRetries + 1) := by
  intro fuel
  induction fuel with
  | zero => intro attempt lastError hle hinv; omega
  | succ fuel ih =>
    intro attempt lastError hle hinv
    rw [withRetryGo_succ_error op maxRetries fuel attempt lastError raw (hop attempt)]
    rw [if_neg hce]
    by_cases hat : attempt = maxRetries
    · rw [if_pos hat]; rw [hat]
    · rw [if_neg hat]
      exact ih (attempt + 1) (some (handleApiError raw)) (by omega) (by omega)

/-! ### Claim C1 -/

/-- Counterexample to C1 as stated: for an operation that always fails with an
HTTP 500 server error, `withRetry(op, 3)` invokes the operation 4 times, not at
most 3 — the `maxRetries` parameter bounds the retries after the first attempt,
not the total number of attempts. -/
theorem C1_counterexample :
    ¬((withRetry (fun _ =>
        Except.error (RawError.axios (some ⟨500, none⟩)) : Nat → Except RawError Nat) 3).2 ≤ 3) := by
  decide

/-- C1 (amended): `withRetry(op, maxRetries)` invokes the operation at most
`maxRetries + 1` times; a returned success is the value of the last performed
attempt; a raised error is the classification of the raw failure of the last
performed attempt; and for a fetcher that fails twice with a server failure and
then succeeds, `withRetry(fetcher, 3)` returns the success value after exactly
3 attempts. -/
theorem C1_retry_contract (α : Type) :
    (∀ (op : Nat → Except RawError α) (maxRetries : Nat),
      (withRetry op maxRetries).2 ≤ maxRetries + 1) ∧
    (∀ (op : Nat → Except RawError α) (maxRetries : Nat) (v : α),
      (withRetry op maxRetries).1 = .ok v →
      op ((withRetry op maxRetries).2 - 1) = .ok v) ∧
    (∀ (op : Nat → Except RawError α) (maxRetries : Nat) (e : ApiError),
      (withRetry op maxRetries).1 = .error e →
      ∃ raw, op ((withRetry op maxRetries).2 - 1) = .error raw ∧
        e = handleApiError raw) ∧
    (∀ v : α,
      withRetry (fun n =>
        if n < 2 then Except.error (RawError.axios (some ⟨500, none⟩)) else Except.ok v) 3 =
        (.ok v, 3)) := by
  refine ⟨?_, ?_, ?_, ?_⟩
  · intro op maxRetries
    have h := withRetryGo_count_le op maxRetries (maxRetries + 1) 0 none
    unfold withRetry
    omega
  · intro op maxRetries v h
    exact withRetryGo_ok op maxRetries (maxRetries + 1) 0 none v h
  · intro op maxRetries e h
    exact withRetryGo_error op maxRetries (maxRetries + 1) 0 none e (by omega) (by omega) h
  · intro v
    rfl

/-- Witness for C1 applying the success-propagation and bound conjuncts at the
concrete fails-twice-then-succeeds fetcher. -/
theorem C1_retry_contract_witness :
    (withRetry (fun n =>
      if n < 2 then Except.error (RawError.axios (some ⟨500, none⟩))
      else Except.ok (42 : Nat)) 3).2 ≤ 4 ∧
    (fun n =>
      if n < 2 then Except.error (RawError.axios (some ⟨500, none⟩))
      else Except.ok (42 : Nat))
        ((withRetry (fun n =>
          if n < 2 then Except.error (RawError.axios (some ⟨500, none⟩))
          else Except.ok (42 : Nat)) 3).2 - 1) = Except.ok 42 :=
  ⟨(C1_retry_contract Nat).1
      (fun n =>
        if n < 2 then Except.error (RawError.axios (some ⟨500, none⟩))
        else Except.ok (42 : Nat)) 3,
    (C1_retry_contract Nat).2.1
      (fun n =>
        if n < 2 then Except.error (RawError.axios (some ⟨500, none⟩))
        else Except.ok (42 : Nat)) 3 42 (by rfl)⟩

/-! ### Claim C2 -/

/-- Counterexample to C2 as stated: wrapping `fetchChartData` called with the
unknown timeframe tag `"2h"` (which throws a plain `Error` — the spec's
`ConfigurationError`) in `withRetry` performs 4 invocations with the default
`maxRetries = 3`, not exactly 1: the plain error classifies as a generic 500,
which the loop retries. -/
theorem C2_counterexample :
    withRetry (fetchChartDataOp "2h" (fun _ => Except.ok (0 : Nat))) 3 =
      (.error ⟨500, ERROR_MESSAGES.GENERIC⟩, 4) ∧ (4 : Nat) ≠ 1 := by
  exact ⟨rfl, by decide⟩

/-- C2 (amended): `withRetry` never retries a classified 4xx error other than
429 — such an operation is invoked exactly once and its classified error
surfaces immediately; a `ConfigurationError` (unknown timeframe tag, thrown as
a plain `Error`), however, classifies as a generic 500 and is retried like a
server failure, for `maxRetries + 1` invocations in total. -/
theorem C2_client_rejected_not_retried (α : Type) :
    (∀ (op : Nat → Except RawError α) (maxRetries : Nat) (raw : RawError),
      op 0 = .error raw → isClientError (handleApiError raw) →
      withRetry op maxRetries = (.error (handleApiError raw), 1)) ∧
    (∀ (timeframe : String) (request : Nat → Except RawError α) (maxRetries : Nat),
      TIMEFRAMES timeframe = none →
      withRetry (fetchChartDataOp timeframe request) maxRetries =
        (.error ⟨500, ERROR_MESSAGES.GENERIC⟩, maxRetries + 1)) := by
  constructor
  · intro op maxRetries raw hop hce
    unfold withRetry
    rw [withRetryGo_succ_error op maxRetries maxRetries 0 none raw hop]
    rw [if_pos hce]
  · intro timeframe request maxRetries htf
    have hop : ∀ n, fetchChartDataOp timeframe request n = .error RawError.other := by
      intro n
      unfold fetchChartDataOp
      rw [htf]
      rfl
    have h := withRetryGo_const_retryable (fetchChartDataOp timeframe request)
      maxRetries RawError.other hop (by decide) (maxRetries + 1) 0 none
      (by omega) (by omega)
    unfold withRetry
    rw [h]
    rfl

/-- Witness for C2: a 404 response is classified client-rejected and surfaces
after exactly one invocation; the unknown tag `"never"` is retried to 4
invocations with `maxRetries = 3`. -/
theorem C2_client_rejected_witness :
    withRetry (fun _ =>
        Except.error (RawError.axios (some ⟨404, none⟩)) : Nat → Except RawError Nat) 3 =
      (.error (handleApiError (RawError.axios (some ⟨404, none⟩))), 1) ∧
    withRetry (fetchChartDataOp "never" (fun _ => Except.ok (0 : Nat))) 3 =
      (.error ⟨500, ERROR_MESSAGES.GENERIC⟩, 4) :=
  ⟨(C2_client_rejected_not_retried Nat).1 _ 3 _ rfl (by decide),
    (C2_client_rejected_not_retried Nat).2 "never" _ 3 rfl⟩

/-! ### Claim C8 -/

/-- Counterexample to C8 as stated: two errors of the same classified kind can
produce different user-visible messages containing payload-dependent text —
`formatChartError` embeds the underlying error's message in its generic branch,
and `handleApiError` echoes the response body's `error` field for non-429 HTTP
errors. -/
theorem C8_counterexample :
    formatChartError (JsThrown.errObj "boom one") ≠
      formatChartError (JsThrown.errObj "boom two") ∧
    handleApiError (RawError.axios (some ⟨400, some "detail a"⟩)) ≠
      handleApiError (RawError.axios (some ⟨400, some "detail b"⟩)) := by
  exact ⟨by decide, by decide⟩

/-- C8 (amended): `getSafeErrorMessage` always returns one of three fixed,
non-sensitive strings determined by the matched kind; `handleApiError` maps
rate-limited (429) responses, missing responses and non-Axios errors to fixed
kind-determined messages; but for any other HTTP response it echoes the
response body's `error` field when that field is present and non-empty, and
`formatChartError` embeds the underlying error's message in its generic branch,
so those two messages are payload-dependent. -/
theorem C8_error_message_map (msg s : String) (r : AxiosResponse) (status : Nat) :
    (∀ e : JsThrown,
      getSafeErrorMessage e = "Rate limit reached. Please wait a moment." ∨
      getSafeErrorMessage e = "Network error. Please check your connection." ∨
      getSafeErrorMessage e = "An unexpected error occurred. Please try again.") ∧
    (r.status = 429 → handleApiError (.axios (some r)) = ⟨429, ERROR_MESSAGES.RATE_LIMIT⟩) ∧
    handleApiError (.axios none) = ⟨0, ERROR_MESSAGES.NETWORK_ERROR⟩ ∧
    handleApiError .other = ⟨500, ERROR_MESSAGES.GENERIC⟩ ∧
    (strIncludes msg "429" = false → strIncludes msg "rate limit" = false →
      strIncludes msg "network" = false → strIncludes msg "fetch" = false →
      formatChartError (.errObj msg) = "Error al cargar datos: " ++ msg) ∧
    (status ≠ 429 → s ≠ "" →
      handleApiError (.axios (some ⟨status, some s⟩)) = ⟨status, s⟩) := by
  refine ⟨?_, ?_, rfl, rfl, ?_, ?_⟩
  · intro e
    cases e with
    | errObj m =>
      unfold getSafeErrorMessage
      by_cases h1 : strIncludes m "429"
      · simp [h1]
      · by_cases h2 : strIncludes m "Network" <;> simp [h1, h2]
    | nonError => right; right; rfl
  · intro h429
    unfold handleApiError
    simp [h429]
  · intro h1 h2 h3 h4
    unfold formatChartError
    simp [h1, h2, h3, h4]
  · intro hst hs
    unfold handleApiError
    simp [hst, hs]

/-- Witness for C8 applying the amended map at concrete errors: a 429 response,
a generic message and a 404 payload. -/
theorem C8_error_message_map_witness :
    handleApiError (.axios (some ⟨429, some "ignored"⟩)) = ⟨429, ERROR_MESSAGES.RATE_LIMIT⟩ ∧
    formatChartError (.errObj "boom") = "Error al cargar datos: " ++ "boom" ∧
    handleApiError (.axios (some ⟨404, some "not found"⟩)) = ⟨404, "not found"⟩ :=
  ⟨(C8_error_message_map "boom" "not found" ⟨429, some "ignored"⟩ 404).2.1 rfl,
    (C8_error_message_map "boom" "not found" ⟨429, some "ignored"⟩ 404).2.2.2.2.1
      (by decide) (by decide) (by decide) (by decide),
    (C8_error_message_map "boom" "not found" ⟨429, some "ignored"⟩ 404).2.2.2.2.2
      (by decide) (by decide)⟩

/-! ### Claim C6 -/

/-- C6: on a non-empty snapshot, every record of the Stage-1 WINNERS result has a
present, strictly positive 24h change lying at-or-above the computed threshold,
and every record of the Stage-1 LOSERS result has a present, strictly negative
24h change lying at-or-below it; the threshold is `winnersThreshold` /
`losersThreshold`, i.e. the change value read at index
`ceil(length * dynamicThresholdPercentage)` of the snapshot sorted on the
24h-change field, descending for WINNERS and ascending for LOSERS (with the
source's `?? 0` fallback). -/
theorem C6_stage1_sign_and_threshold (allCryptos : List Cryptocurrency) (pct : ℚ)
    (h : allCryptos ≠ []) :
    (∀ c ∈ (stage1 allCryptos .winners pct).clientFiltered,
      ∃ q, c.price_change_percentage_24h = some q ∧ 0 < q ∧
        (stage1 allCryptos .winners pct).threshold ≤ q) ∧
    (∀ c ∈ (stage1 allCryptos .losers pct).clientFiltered,
      ∃ q, c.price_change_percentage_24h = some q ∧ q < 0 ∧
        q ≤ (stage1 allCryptos .losers pct).threshold) ∧
    (stage1 allCryptos .winners pct).threshold = winnersThreshold allCryptos pct ∧
    (stage1 allCryptos .losers pct).threshold = losersThreshold allCryptos pct := by
  have hlen : allCryptos.length ≠ 0 := fun h0 => h (List.length_eq_zero.mp h0)
  refine ⟨?_, ?_, ?_, ?_⟩
  · intro c hc
    rw [stage1_winners_eq allCryptos pct hlen] at hc ⊢
    simp only [List.mem_filter, decide_eq_true_eq] at hc
    obtain ⟨-, ht, hpos⟩ := hc
    cases hq : c.price_change_percentage_24h with
    | none =>
      rw [show changeOf c = 0 from by simp [changeOf, hq]] at hpos
      exact absurd hpos (lt_irrefl 0)
    | some q =>
      have hcq : changeOf c = q := by simp [changeOf, hq]
      exact ⟨q, rfl, hcq ▸ hpos, hcq ▸ ht⟩
  · intro c hc
    rw [stage1_losers_eq allCryptos pct hlen] at hc ⊢
    simp only [List.mem_filter, decide_eq_true_eq] at hc
    obtain ⟨-, ht, hneg⟩ := hc
    cases hq : c.price_change_percentage_24h with
    | none =>
      rw [show changeOf c = 0 from by simp [changeOf, hq]] at hneg
      exact absurd hneg (lt_irrefl 0)
    | some q =>
      have hcq : changeOf c = q := by simp [changeOf, hq]
      exact ⟨q, rfl, hcq ▸ hneg, hcq ▸ ht⟩
  · rw [stage1_winners_eq allCryptos pct hlen]
  · rw [stage1_losers_eq allCryptos pct hlen]

/-- Witness for C6 at the singleton snapshot `[{change: +5}]` with
`dynamicThresholdPercentage = 1`: the record survives the winners filter with a
present positive change at-or-above the threshold. -/
theorem C6_stage1_sign_and_threshold_witness :
    ∃ q, (⟨"a", some 5, 0⟩ : Cryptocurrency).price_change_percentage_24h = some q ∧
      0 < q ∧ (stage1 [⟨"a", some 5, 0⟩] .winners 1).threshold ≤ q := by
  have hidx : thresholdIndex (List.length [(⟨"a", some 5, 0⟩ : Cryptocurrency)]) 1 = 1 := by
    unfold thresholdIndex
    norm_num
  have hthr : winnersThreshold [⟨"a", some 5, 0⟩] 1 = 0 := by
    unfold winnersThreshold
    rw [hidx]
    rfl
  have hmem : (⟨"a", some 5, 0⟩ : Cryptocurrency) ∈
      (stage1 [⟨"a", some 5, 0⟩] .winners 1).clientFiltered := by
    rw [stage1_winners_eq [⟨"a", some 5, 0⟩] 1 (by decide)]
    simp only [List.mem_filter, decide_eq_true_eq, hthr]
    refine ⟨by simp, ?_, ?_⟩ <;> decide
  exact (C6_stage1_sign_and_threshold [⟨"a", some 5, 0⟩] 1 (by decide)).1
    ⟨"a", some 5, 0⟩ hmem

/-! ### Claim C4 -/

/-- The selection loop returns either its initial candidate or a point read at
one of the visited indices. -/
theorem bestGo_eq_or_mem (data : List ChartDataPoint) (avg : JsNum) :
    ∀ (idxs : List Nat) (maxDiff : JsNum) (best : ChartDataPoint),
      bestGo data avg idxs maxDiff best = best ∨
        ∃ j ∈ idxs, bestGo data avg idxs maxDiff best = data.getD j default := by
  intro idxs
  induction idxs with
  | nil => intro maxDiff best; left; rfl
  | cons j rest ih =>
    intro maxDiff best
    by_cases hgt : (((data.getD j default).price.sub avg).abs).gt maxDiff
    · have heq : bestGo data avg (j :: rest) maxDiff best =
          bestGo data avg rest (((data.getD j default).price.sub avg).abs)
            (data.getD j default) := by
        simp only [bestGo]
        rw [if_pos hgt]
      rcases ih (((data.getD j default).price.sub avg).abs) (data.getD j default) with
        h1 | ⟨j', hj', h2⟩
      · right; exact ⟨j, List.mem_cons_self j rest, heq.trans h1⟩
      · right; exact ⟨j', List.mem_cons_of_mem j hj', heq.trans h2⟩
    · have heq : bestGo data avg (j :: rest) maxDiff best =
          bestGo data avg rest maxDiff best := by
        simp only [bestGo]
        rw [if_neg hgt]
      rcases ih maxDiff best with h1 | ⟨j', hj', h2⟩
      · left; exact heq.trans h1
      · right; exact ⟨j', List.mem_cons_of_mem j hj', heq.trans h2⟩

/-- An index of `bucketIdxs len start stop` lies in `[start, min stop len)`. -/
theorem mem_bucketIdxs {len start stop j : Nat} (h : j ∈ bucketIdxs len start stop) :
    start ≤ j ∧ j < stop ∧ j < len := by
  unfold bucketIdxs at h
  rw [List.mem_range'_1] at h
  omega

/-- `bestOfBucket` reads a point at some index of its (clipped) bucket. -/
theorem bestOfBucket_getD (data : List ChartDataPoint) (start stop : Nat)
    (hs : start < data.length) (hss : start < stop) :
    ∃ j, start ≤ j ∧ j < stop ∧ j < data.length ∧
      bestOfBucket data start stop = data.getD j default := by
  unfold bestOfBucket
  rcases bestGo_eq_or_mem data
      ((bucketSum data (bucketIdxs data.length start stop)).divNat (stop - start))
      (bucketIdxs data.length start stop) .ninf (data.getD start default) with
    h | ⟨j, hj, h⟩
  · exact ⟨start, Nat.le_refl _, hss, hs, h⟩
  · obtain ⟨h1, h2, h3⟩ := mem_bucketIdxs hj
    exact ⟨j, h1, h2, h3, h⟩

/-- The interior-bucket representatives (for buckets `i0, i0+1, …`), followed by
the final point, form a sublist of the data from offset `i0 * b` onward. -/
theorem buckets_concat_sublist (data : List ChartDataPoint) (b : Nat)
    (f : Nat → ChartDataPoint)
    (hf : ∀ i, i * b < data.length →
      ∃ j, i * b ≤ j ∧ j < i * b + b ∧ j < data.length ∧ f i = data.getD j default) :
    ∀ (cnt i0 : Nat), (i0 + cnt) * b ≤ data.length - 1 → 1 ≤ data.length →
      List.Sublist ((List.range' i0 cnt).map f ++ [data.getD (data.length - 1) default])
        (data.drop (i0 * b)) := by
  intro cnt
  induction cnt with
  | zero =>
    intro i0 hbound hlen
    have hi0 : i0 * b ≤ data.length - 1 := by simpa using hbound
    have hlast : data.length - 1 < data.length := by omega
    simp only [List.range', List.map_nil, List.nil_append]
    rw [List.singleton_sublist]
    have hsub1 : List.Sublist (data.drop (data.length - 1)) (data.drop (i0 * b)) :=
      List.drop_sublist_drop_left data hi0
    have hmem : data.getD (data.length - 1) default ∈ data.drop (data.length - 1) := by
      rw [List.drop_eq_getElem_cons hlast, List.getD_eq_getElem data default hlast]
      exact List.mem_cons_self _ _
    exact hsub1.subset hmem
  | succ cnt ih =>
    intro i0 hbound hlen
    have hstart : i0 * b < data.length := by
      have hmono : i0 * b ≤ (i0 + (cnt + 1)) * b := Nat.mul_le_mul_right b (by omega)
      omega
    obtain ⟨j, hj1, hj2, hj3, hfeq⟩ := hf i0 hstart
    rw [List.range'_succ, List.map_cons, List.cons_append, hfeq]
    have hdecomp : data.drop j = data.getD j default :: data.drop (j + 1) := by
      rw [List.drop_eq_getElem_cons hj3, List.getD_eq_getElem data default hj3]
    have hih := ih (i0 + 1)
      (by
        have harith : i0 + 1 + cnt = i0 + (cnt + 1) := by omega
        rw [harith]
        exact hbound)
      hlen
    have hnest : List.Sublist (data.drop ((i0 + 1) * b)) (data.drop (j + 1)) := by
      apply List.drop_sublist_drop_left
      have : (i0 + 1) * b = i0 * b + b := by rw [Nat.succ_mul]
      omega
    have htail := hih.trans hnest
    have hcons : List.Sublist
        (data.getD j default :: ((List.range' (i0 + 1) cnt).map f ++
          [data.getD (data.length - 1) default]))
        (data.drop j) := by
      rw [hdecomp]
      exact List.Sublist.cons₂ _ htail
    exact hcons.trans (List.drop_sublist_drop_left data hj1)

/-- Unfolding of `downsampleData` in its reduction branch. -/
theorem downsampleData_eq_of_lt (data : List ChartDataPoint) (m : Nat)
    (h : m < data.length) :
    downsampleData data m =
      data.getD 0 default ::
        ((List.range' 1 (m - 2)).map fun i =>
            bestOfBucket data (i * (data.length / m))
              (i * (data.length / m) + data.length / m)) ++
          [data.getD (data.length - 1) default] := by
  unfold downsampleData
  rw [if_neg (by omega)]
  rfl

/-- C4 (amended): for every series strictly longer than `maxPoints` and every
`maxPoints ≥ 2`, `downsampleData` returns exactly `maxPoints` points — hence at
most `maxPoints` and at least `min (length, 2)` — each drawn from the input in
input order (the result is a sublist of the input), starting with the first
point and ending with the last, so non-decreasing input timestamps stay
non-decreasing.  (For `maxPoints ≤ 1` the code still returns the two endpoint
points, exceeding `maxPoints` — see the counterexample.) -/
theorem C4_downsample_shape (data : List ChartDataPoint) (maxPoints : Nat)
    (h2 : 2 ≤ maxPoints) (hlt : maxPoints < data.length) :
    (downsampleData data maxPoints).length = maxPoints ∧
    (downsampleData data maxPoints).length ≤ maxPoints ∧
    min data.length 2 ≤ (downsampleData data maxPoints).length ∧
    (downsampleData data maxPoints).head? = data.head? ∧
    (downsampleData data maxPoints).getLast? = data.getLast? ∧
    List.Sublist (downsampleData data maxPoints) data ∧
    (data.Pairwise tsLe → (downsampleData data maxPoints).Pairwise tsLe) := by
  have hb : 1 ≤ data.length / maxPoints := by
    rw [Nat.le_div_iff_mul_le (by omega)]
    omega
  have hmulle : data.length / maxPoints * maxPoints ≤ data.length :=
    Nat.div_mul_le_self data.length maxPoints
  have hkey : (maxPoints - 1) * (data.length / maxPoints) ≤ data.length - 1 := by
    have h1 : (maxPoints - 1) * (data.length / maxPoints) =
        maxPoints * (data.length / maxPoints) - data.length / maxPoints := by
      rw [Nat.sub_one_mul]
    have h2' : maxPoints * (data.length / maxPoints) ≤ data.length := by
      rw [Nat.mul_comm]
      exact hmulle
    omega
  have heq := downsampleData_eq_of_lt data maxPoints hlt
  have h0 : 0 < data.length := by omega
  have hdata : data = data.getD 0 default :: data.drop 1 := by
    conv_lhs => rw [← List.drop_zero data]
    rw [List.drop_eq_getElem_cons h0, List.getD_eq_getElem data default h0]
  have hsub : List.Sublist (downsampleData data maxPoints) data := by
    have hf : ∀ i, i * (data.length / maxPoints) < data.length →
        ∃ j, i * (data.length / maxPoints) ≤ j ∧
          j < i * (data.length / maxPoints) + data.length / maxPoints ∧
          j < data.length ∧
          bestOfBucket data (i * (data.length / maxPoints))
            (i * (data.length / maxPoints) + data.length / maxPoints) =
            data.getD j default := by
      intro i hi
      exact bestOfBucket_getD data _ _ hi (by omega)
    have htail := buckets_concat_sublist data (data.length / maxPoints)
      (fun i => bestOfBucket data (i * (data.length / maxPoints))
        (i * (data.length / maxPoints) + data.length / maxPoints)) hf
      (maxPoints - 2) 1
      (by
        have harith : 1 + (maxPoints - 2) = maxPoints - 1 := by omega
        rw [harith]
        exact hkey)
      (by omega)
    have hdropb : List.Sublist (data.drop (1 * (data.length / maxPoints))) (data.drop 1) := by
      apply List.drop_sublist_drop_left
      omega
    have htail2 := htail.trans hdropb
    have hfinal := List.Sublist.cons₂ (data.getD 0 default) htail2
    rw [heq]
    exact hdata.symm ▸ hfinal
  have hlenres : (downsampleData data maxPoints).length = maxPoints := by
    rw [heq]
    simp
    omega
  refine ⟨hlenres, by omega, by omega, ?_, ?_, hsub, fun hp => hp.sublist hsub⟩
  · rw [heq]
    conv_rhs => rw [hdata]
    rfl
  · rw [heq, List.getLast?_concat, List.getLast?_eq_getElem?,
      List.getD_eq_getElem data default (show data.length - 1 < data.length by omega),
      List.getElem?_eq_getElem (show data.length - 1 < data.length by omega)]

/-- Counterexample to C4 as stated: with `maxPoints = 1` and a two-point series
the result still contains both endpoints, so its length 2 exceeds `maxPoints`. -/
theorem C4_counterexample :
    ¬((downsampleData [⟨JsNum.num 1, JsNum.num 1⟩, ⟨JsNum.num 2, JsNum.num 2⟩] 1).length ≤ 1) := by
  decide

/-- Witness for C4 at a concrete three-point series and `maxPoints = 2`: the
downsampled result is a sublist of the input. -/
theorem C4_downsample_shape_witness :
    List.Sublist
      (downsampleData
        [⟨JsNum.num 1, JsNum.num 1⟩, ⟨JsNum.num 2, JsNum.num 4⟩, ⟨JsNum.num 3, JsNum.num 9⟩] 2)
      [⟨JsNum.num 1, JsNum.num 1⟩, ⟨JsNum.num 2, JsNum.num 4⟩, ⟨JsNum.num 3, JsNum.num 9⟩] :=
  (C4_downsample_shape
    [⟨JsNum.num 1, JsNum.num 1⟩, ⟨JsNum.num 2, JsNum.num 4⟩, ⟨JsNum.num 3, JsNum.num 9⟩] 2
    (by decide) (by decide)).2.2.2.2.2.1

end CryptoDash
